import Mathlib

/- Shallow embedding of the RfPlayer serial protocol engine and profile
registry of `custom_components/myrfplayer`: the frame decoder
(`RfplayerProtocol.data_received` / `handle_lines` / `handle_raw_packet`),
the value-extraction pipeline (`BaseValueConfig._convert`,
`JsonValueConfig.get_value`), the profile matcher
(`ProfileRegistry._is_matching` / `get_platform_config`), device identity
derivation (`RfDeviceEventAdapter._parse_json_device`) and the disconnect
wiring (`RfplayerProtocol.connection_lost`, `RfPlayerClient.close`,
`RfPlayerClient._disconnect_callback_internal`).

Python runtime values are modelled by the `Json` universe.  Python
`float`s are modelled as exact decimal values `m * 10^e` (`PyFloat`):
every float constant appearing in the claims (1, 2.0, 100.0, ...) is
exactly representable in binary64 and its arithmetic here is exact, where
the two semantics agree, and the decimal rendering of such values
coincides with CPython's shortest round-trip repr.  Python exceptions are
modelled with `Except PyErr`. -/

set_option maxRecDepth 8000

namespace RfPlayer

/- Python exceptions raised by the embedded fragments. -/
inductive PyErr where
  | keyError (key : String)
  | typeError (msg : String)
  | valueError (msg : String)
  | attributeError (msg : String)
  | jsonDecodeError (msg : String)
deriving DecidableEq, Repr

/- Exact decimal model of a Python `float`: the value `m * 10^e`.
Representations are not normalized; value equality is `PyFloat.beqVal`. -/
structure PyFloat where
  m : Int
  e : Int
deriving Repr

/- Float multiplication (exact; binary64 rounding is not modelled — all
claim-relevant products are exact). -/
def PyFloat.mul (a b : PyFloat) : PyFloat := ⟨a.m * b.m, a.e + b.e⟩

def PyFloat.neg (a : PyFloat) : PyFloat := ⟨-a.m, a.e⟩

/- Value equality of two decimal floats (align exponents, compare
significands). -/
def PyFloat.beqVal (a b : PyFloat) : Bool :=
  if a.e ≥ b.e then a.m * (10 : Int) ^ (a.e - b.e).toNat == b.m
  else a.m == b.m * (10 : Int) ^ (b.e - a.e).toNat

/- Universe of Python/JSON runtime values (`json.loads` results, packet
payloads, extracted values).  `int` and `float` are kept distinct, as in
Python, because `str()` renders them differently. -/
inductive Json where
  | null
  | bool (b : Bool)
  | int (n : Int)
  | float (x : PyFloat)
  | str (s : String)
  | arr (xs : List Json)
  | obj (fields : List (String × Json))
deriving Repr

/- Decidable equality for `Json` (structural, matching Python `==` on the
value shapes the claims exercise). -/
def Json.beq : Json → Json → Bool
  | .null, .null => true
  | .bool a, .bool b => a = b
  | .int a, .int b => a = b
  | .float a, .float b => a.beqVal b
  | .str a, .str b => a = b
  | .arr xs, .arr ys => beqList xs ys
  | .obj xs, .obj ys => beqFields xs ys
  | _, _ => false
where
  beqList : List Json → List Json → Bool
    | [], [] => true
    | x :: xs, y :: ys => x.beq y && beqList xs ys
    | _, _ => false
  beqFields : List (String × Json) → List (String × Json) → Bool
    | [], [] => true
    | (k, v) :: xs, (l, w) :: ys => k = l && v.beq w && beqFields xs ys
    | _, _ => false

instance : BEq Json := ⟨Json.beq⟩

/- Python `str` helpers ------------------------------------------------ -/

def digitsOfNatAux (fuel : Nat) (n : Nat) (acc : List Char) : List Char :=
  match fuel with
  | 0 => acc
  | fuel + 1 =>
    if n < 10 then Char.ofNat (n + 48) :: acc
    else digitsOfNatAux fuel (n / 10) (Char.ofNat (n % 10 + 48) :: acc)

def digitsOfNat (n : Nat) : List Char := digitsOfNatAux (n + 1) n []

/- `str()` of a Python `int`. -/
def pyStrOfInt (n : Int) : List Char :=
  if n < 0 then '-' :: digitsOfNat n.natAbs else digitsOfNat n.natAbs

/- Pad a digit string on the left with zeros up to length `k`. -/
def padZeros (k : Nat) (ds : List Char) : List Char :=
  List.replicate (k - ds.length) '0' ++ ds

def trimTrailingZeros (ds : List Char) : List Char :=
  (ds.reverse.dropWhile (· = '0')).reverse

/- `str()` of a Python `float`, modelled on exact decimals: integral
values render as `"n.0"`, others as their exact decimal expansion with
trailing zeros trimmed (CPython's shortest round-trip repr agrees on all
values with a short exact decimal form, which covers every value the
claims exercise; CPython's scientific-notation thresholds are not
modelled). -/
def pyStrOfFloat (x : PyFloat) : List Char :=
  let sign : List Char := if x.m < 0 then ['-'] else []
  let n := x.m.natAbs
  if 0 ≤ x.e then
    sign ++ digitsOfNat (n * 10 ^ x.e.toNat) ++ ['.', '0']
  else
    let d := 10 ^ (-x.e).toNat
    let ip := digitsOfNat (n / d)
    let fp := trimTrailingZeros (padZeros (-x.e).toNat (digitsOfNat (n % d)))
    sign ++ ip ++ '.' :: (if fp = [] then ['0'] else fp)

/- Python `int(...)` / `float(...)` coercions from strings ------------- -/

def digitsToNat (ds : List Char) : Nat :=
  ds.foldl (fun a c => 10 * a + (c.toNat - 48)) 0

def pyTrim (cs : List Char) : List Char :=
  ((cs.dropWhile Char.isWhitespace).reverse.dropWhile Char.isWhitespace).reverse

/- Python `int(s)` on a string: optional surrounding whitespace, optional
sign, one or more decimal digits (digit-group underscores are not
modelled; no claim uses them). -/
def pyParseInt (cs : List Char) : Option Int :=
  let core : List Char → Option Int := fun ds =>
    if ds ≠ [] ∧ ds.all Char.isDigit then some (digitsToNat ds) else none
  match pyTrim cs with
  | '+' :: ds => core ds
  | '-' :: ds => (core ds).map Neg.neg
  | ds => core ds

/- Python `float(s)` on a string: optional sign, `digits[.digits][e±digits]`
(also `.digits` / `digits.`); `inf`/`nan` are not modelled (no claim uses
them). -/
def pyParseFloatCore (cs : List Char) : Option PyFloat :=
  let ip := cs.takeWhile Char.isDigit
  let rest := cs.drop ip.length
  let (fp, rest') :=
    match rest with
    | '.' :: r => (r.takeWhile Char.isDigit, r.drop (r.takeWhile Char.isDigit).length)
    | _ => ([], rest)
  if ip = [] ∧ fp = [] then none
  else
    let mant : PyFloat := ⟨digitsToNat (ip ++ fp), -(fp.length : Int)⟩
    match rest' with
    | [] => some mant
    | e :: r =>
      if e = 'e' ∨ e = 'E' then
        let (sgn, ds) : (Bool × List Char) :=
          match r with
          | '+' :: r' => (false, r')
          | '-' :: r' => (true, r')
          | _ => (false, r)
        if ds ≠ [] ∧ ds.all Char.isDigit then
          let ex : Int := digitsToNat ds
          some ⟨mant.m, mant.e + (if sgn then -ex else ex)⟩
        else none
      else none

def pyParseFloat (cs : List Char) : Option PyFloat :=
  match pyTrim cs with
  | '+' :: ds => pyParseFloatCore ds
  | '-' :: ds => (pyParseFloatCore ds).map PyFloat.neg
  | ds => pyParseFloatCore ds

/- Python `int(x)` on an arbitrary value (`str` parses, `float` truncates
toward zero, `bool` maps to 0/1, everything else raises `TypeError`). -/
def pyToInt : Json → Except PyErr Int
  | .str s =>
    match pyParseInt s.toList with
    | some n => .ok n
    | none => .error (.valueError "invalid literal for int")
  | .int n => .ok n
  | .float x =>
    if 0 ≤ x.e then .ok (x.m * (10 : Int) ^ x.e.toNat)
    else .ok (Int.tdiv x.m ((10 : Int) ^ (-x.e).toNat))
  | .bool b => .ok (if b then 1 else 0)
  | _ => .error (.typeError "int argument must be a string or a number")

/- Python `float(x)` on an arbitrary value. -/
def pyToFloat : Json → Except PyErr PyFloat
  | .str s =>
    match pyParseFloat s.toList with
    | some x => .ok x
    | none => .error (.valueError "could not convert string to float")
  | .int n => .ok ⟨n, 0⟩
  | .float x => .ok x
  | .bool b => .ok ⟨if b then 1 else 0, 0⟩
  | _ => .error (.typeError "float argument must be a string or a number")

/- Strict UTF-8 decoding, the semantics of Python `bytes.decode()`:
rejects invalid start bytes, truncated sequences, stray continuation
bytes, overlong encodings and surrogates. Bytes are `Nat`s < 256. -/

def contByte (b : Nat) : Bool := 128 ≤ b && b ≤ 191

/- Allowed first continuation byte of a 3-byte sequence led by `b`
(excludes overlong encodings and UTF-16 surrogates). -/
def utf8Cont3 (b c1 : Nat) : Bool :=
  if b = 224 then 160 ≤ c1 && c1 ≤ 191
  else if b = 237 then 128 ≤ c1 && c1 ≤ 159
  else contByte c1

/- Allowed first continuation byte of a 4-byte sequence led by `b`
(excludes overlong encodings and code points above U+10FFFF). -/
def utf8Cont4 (b c1 : Nat) : Bool :=
  if b = 240 then 144 ≤ c1 && c1 ≤ 191
  else if b = 244 then 128 ≤ c1 && c1 ≤ 143
  else contByte c1

/- Decode one UTF-8 character from lead byte `b` followed by `rest`,
returning the character and the remaining bytes. -/
def utf8DecodeOne (b : Nat) (rest : List Nat) : Option (Char × List Nat) :=
  if b < 128 then some (Char.ofNat b, rest)
  else if 194 ≤ b && b ≤ 223 then
    match rest with
    | c1 :: r =>
      if contByte c1 then some (Char.ofNat ((b - 192) * 64 + (c1 - 128)), r) else none
    | [] => none
  else if 224 ≤ b && b ≤ 239 then
    match rest with
    | c1 :: c2 :: r =>
      if utf8Cont3 b c1 && contByte c2 then
        some (Char.ofNat ((b - 224) * 4096 + (c1 - 128) * 64 + (c2 - 128)), r)
      else none
    | _ => none
  else if 240 ≤ b && b ≤ 244 then
    match rest with
    | c1 :: c2 :: c3 :: r =>
      if utf8Cont4 b c1 && contByte c2 && contByte c3 then
        some (Char.ofNat ((b - 240) * 262144 + (c1 - 128) * 4096 + (c2 - 128) * 64 + (c3 - 128)), r)
      else none
    | _ => none
  else none

theorem utf8DecodeOne_length {b : Nat} {rest r : List Nat} {c : Char}
    (h : utf8DecodeOne b rest = some (c, r)) : r.length ≤ rest.length := by
  simp only [utf8DecodeOne] at h
  repeat' split at h
  all_goals simp_all
  all_goals omega

theorem utf8DecodeOne_append {b : Nat} {rest r : List Nat} {c : Char} (u : List Nat)
    (h : utf8DecodeOne b rest = some (c, r)) :
    utf8DecodeOne b (rest ++ u) = some (c, r ++ u) := by
  simp only [utf8DecodeOne] at h ⊢
  repeat' split at h
  all_goals simp_all
  all_goals split_ifs
  all_goals first | rfl | omega | simp_all

/- Worker for `utf8Decode`, structurally recursive on a fuel argument so
that concrete inputs reduce inside the kernel; each decoded character
consumes at least one byte, so `fuel ≥ length` never hits the fuel-out
branch. -/
def utf8DecodeGo : Nat → List Nat → Option (List Char)
  | _, [] => some []
  | 0, _ :: _ => none
  | fuel + 1, b :: rest =>
    match utf8DecodeOne b rest with
    | none => none
    | some (c, r) => (utf8DecodeGo fuel r).map (c :: ·)

/- Python `bytes.decode()`: strict whole-buffer UTF-8 decoding; any
invalid or truncated sequence fails the whole call (`UnicodeDecodeError`,
modelled as `none`). -/
def utf8Decode (l : List Nat) : Option (List Char) := utf8DecodeGo l.length l

theorem utf8DecodeGo_eq_of_le :
    ∀ {f1 : Nat} {l : List Nat} (f2 : Nat), l.length ≤ f1 → l.length ≤ f2 →
      utf8DecodeGo f1 l = utf8DecodeGo f2 l := by
  intro f1
  induction f1 with
  | zero =>
    intro l f2 h1 _
    have : l = [] := List.length_eq_zero.mp (Nat.le_zero.mp h1)
    subst this
    cases f2 <;> rfl
  | succ f1 ih =>
    intro l f2 h1 h2
    cases l with
    | nil => cases f2 <;> rfl
    | cons b rest =>
      cases f2 with
      | zero => simp at h2
      | succ f2 =>
        simp only [utf8DecodeGo]
        cases heq : utf8DecodeOne b rest with
        | none => rfl
        | some p =>
          obtain ⟨c, r⟩ := p
          have hr := utf8DecodeOne_length heq
          simp only [List.length_cons] at h1 h2
          show Option.map (c :: ·) (utf8DecodeGo f1 r) =
            Option.map (c :: ·) (utf8DecodeGo f2 r)
          rw [ih f2 (by omega) (by omega)]

/- Valid UTF-8 chunks decode homomorphically: decoding a concatenation of
two independently valid byte runs yields the concatenation of their
decodings. -/
theorem utf8Decode_append :
    ∀ (a : List Nat) {b : List Nat} {s t : List Char},
      utf8Decode a = some s → utf8Decode b = some t →
      utf8Decode (a ++ b) = some (s ++ t) := by
  have go : ∀ (f : Nat) (a : List Nat) {b : List Nat} {s t : List Char},
      a.length ≤ f → utf8DecodeGo f a = some s → utf8Decode b = some t →
      utf8Decode (a ++ b) = some (s ++ t) := by
    intro f
    induction f with
    | zero =>
      intro a b s t hf ha hb
      have : a = [] := List.length_eq_zero.mp (Nat.le_zero.mp hf)
      subst this
      cases ha
      simpa using hb
    | succ f ih =>
      intro a b s t hf ha hb
      cases a with
      | nil =>
        cases ha
        simpa using hb
      | cons x rest =>
        simp only [utf8DecodeGo] at ha
        cases heq : utf8DecodeOne x rest with
        | none => rw [heq] at ha; cases ha
        | some p =>
          obtain ⟨c, r⟩ := p
          rw [heq] at ha
          obtain ⟨s', hs', rfl⟩ := Option.map_eq_some'.mp ha
          have hr := utf8DecodeOne_length heq
          simp only [List.length_cons] at hf
          have hrec : utf8Decode (r ++ b) = some (s' ++ t) :=
            ih r (by omega) hs' hb
          have hone := utf8DecodeOne_append b heq
          show utf8DecodeGo (x :: (rest ++ b)).length (x :: (rest ++ b)) =
            some (c :: (s' ++ t))
          simp only [List.length_cons, utf8DecodeGo, hone]
          show Option.map (c :: ·) (utf8DecodeGo (rest ++ b).length (r ++ b)) =
            some (c :: (s' ++ t))
          rw [utf8DecodeGo_eq_of_le (r ++ b).length
            (by simp; omega) le_rfl]
          show Option.map (c :: ·) (utf8Decode (r ++ b)) = some (c :: (s' ++ t))
          rw [hrec]
          rfl
  intro a b s t ha hb
  exact go a.length a le_rfl ha hb

/- `json.loads` -------------------------------------------------------
A recursive-descent JSON parser over the character list of the packet
body, modelling Python's `json.loads`: values are objects, arrays,
strings, numbers (int when no fraction/exponent, float otherwise),
`true`/`false`/`null`; the whole input must be a single value surrounded
only by whitespace, otherwise `json.JSONDecodeError` is raised. -/

def jsonWs (cs : List Char) : List Char :=
  cs.dropWhile (fun c => c = ' ' || c = '\t' || c = '\n' || c = '\r')

def hexVal (c : Char) : Option Nat :=
  if c.isDigit then some (c.toNat - 48)
  else if 'a' ≤ c ∧ c ≤ 'f' then some (c.toNat - 87)
  else if 'A' ≤ c ∧ c ≤ 'F' then some (c.toNat - 55)
  else none

/- Parse the remainder of a JSON string literal (opening quote already
consumed).  Standard escapes and `\uXXXX` are handled; surrogate-pair
recombination is not modelled (no claim exercises it). -/
def parseJsonString (fuel : Nat) (cs : List Char) (acc : List Char) :
    Except PyErr (String × List Char) :=
  match fuel with
  | 0 => .error (.jsonDecodeError "unterminated string")
  | fuel + 1 =>
    match cs with
    | [] => .error (.jsonDecodeError "unterminated string")
    | '"' :: rest => .ok (String.mk acc.reverse, rest)
    | '\\' :: e :: rest =>
      match e with
      | '"' => parseJsonString fuel rest ('"' :: acc)
      | '\\' => parseJsonString fuel rest ('\\' :: acc)
      | '/' => parseJsonString fuel rest ('/' :: acc)
      | 'b' => parseJsonString fuel rest (Char.ofNat 8 :: acc)
      | 'f' => parseJsonString fuel rest (Char.ofNat 12 :: acc)
      | 'n' => parseJsonString fuel rest ('\n' :: acc)
      | 'r' => parseJsonString fuel rest ('\r' :: acc)
      | 't' => parseJsonString fuel rest ('\t' :: acc)
      | 'u' =>
        match rest with
        | h1 :: h2 :: h3 :: h4 :: rest' =>
          match hexVal h1, hexVal h2, hexVal h3, hexVal h4 with
          | some a, some b, some c, some d =>
            parseJsonString fuel rest' (Char.ofNat (a * 4096 + b * 256 + c * 16 + d) :: acc)
          | _, _, _, _ => .error (.jsonDecodeError "invalid \\u escape")
        | _ => .error (.jsonDecodeError "invalid \\u escape")
      | _ => .error (.jsonDecodeError "invalid escape")
    | c :: rest => parseJsonString fuel rest (c :: acc)

/- Parse a JSON number starting at `cs`; ints stay `Json.int`, any
fraction or exponent makes a `Json.float`. -/
def parseJsonNumber (cs : List Char) : Except PyErr (Json × List Char) :=
  let (neg, cs1) : Bool × List Char :=
    match cs with
    | '-' :: r => (true, r)
    | _ => (false, cs)
  let ip := cs1.takeWhile Char.isDigit
  let rest := cs1.drop ip.length
  if ip = [] then .error (.jsonDecodeError "expecting value")
  else
    let (fp, rest') : List Char × List Char :=
      match rest with
      | '.' :: r => (r.takeWhile Char.isDigit, r.drop (r.takeWhile Char.isDigit).length)
      | _ => ([], rest)
    if rest ≠ rest' ∧ fp = [] then .error (.jsonDecodeError "expecting digits after point")
    else
      let (hasExp, exNeg, ex, rest'') : Bool × Bool × List Char × List Char :=
        match rest' with
        | 'e' :: r | 'E' :: r =>
          match r with
          | '+' :: r' => (true, false, r'.takeWhile Char.isDigit, r'.drop (r'.takeWhile Char.isDigit).length)
          | '-' :: r' => (true, true, r'.takeWhile Char.isDigit, r'.drop (r'.takeWhile Char.isDigit).length)
          | _ => (true, false, r.takeWhile Char.isDigit, r.drop (r.takeWhile Char.isDigit).length)
        | _ => (false, false, [], rest')
      if hasExp ∧ ex = [] then .error (.jsonDecodeError "expecting digits in exponent")
      else if fp = [] ∧ ¬hasExp then
        let n : Int := digitsToNat ip
        .ok (.int (if neg then -n else n), rest)
      else
        let e0 : Int := -(fp.length : Int) +
          (if hasExp then (if exNeg then -(digitsToNat ex : Int) else (digitsToNat ex : Int)) else 0)
        let x : PyFloat := ⟨digitsToNat (ip ++ fp), e0⟩
        .ok (.float (if neg then x.neg else x), rest'')

mutual

/- Parse one JSON value (with leading whitespace). -/
def parseJsonValue (fuel : Nat) (cs : List Char) : Except PyErr (Json × List Char) :=
  match fuel with
  | 0 => .error (.jsonDecodeError "input too deep")
  | fuel + 1 =>
    match jsonWs cs with
    | [] => .error (.jsonDecodeError "expecting value")
    | '"' :: rest => (parseJsonString (rest.length + 1) rest []).map (fun (s, r) => (.str s, r))
    | '{' :: rest =>
      (match jsonWs rest with
       | '}' :: r => .ok (.obj [], r)
       | _ => parseJsonMembers fuel rest [])
    | '[' :: rest =>
      (match jsonWs rest with
       | ']' :: r => .ok (.arr [], r)
       | _ => parseJsonItems fuel rest [])
    | 't' :: 'r' :: 'u' :: 'e' :: rest => .ok (.bool true, rest)
    | 'f' :: 'a' :: 'l' :: 's' :: 'e' :: rest => .ok (.bool false, rest)
    | 'n' :: 'u' :: 'l' :: 'l' :: rest => .ok (.null, rest)
    | cs' => parseJsonNumber cs'

/- Parse the members of a JSON object after `{` (at least one). -/
def parseJsonMembers (fuel : Nat) (cs : List Char) (acc : List (String × Json)) :
    Except PyErr (Json × List Char) :=
  match fuel with
  | 0 => .error (.jsonDecodeError "input too deep")
  | fuel + 1 =>
    match jsonWs cs with
    | '"' :: rest =>
      match parseJsonString (rest.length + 1) rest [] with
      | .error e => .error e
      | .ok (key, rest') =>
        match jsonWs rest' with
        | ':' :: rest'' =>
          match parseJsonValue fuel rest'' with
          | .error e => .error e
          | .ok (v, rest''') =>
            match jsonWs rest''' with
            | ',' :: more => parseJsonMembers fuel more ((key, v) :: acc)
            | '}' :: more => .ok (.obj ((key, v) :: acc).reverse, more)
            | _ => .error (.jsonDecodeError "expecting comma or brace")
        | _ => .error (.jsonDecodeError "expecting colon")
    | _ => .error (.jsonDecodeError "expecting property name")

/- Parse the items of a JSON array after `[` (at least one). -/
def parseJsonItems (fuel : Nat) (cs : List Char) (acc : List Json) :
    Except PyErr (Json × List Char) :=
  match fuel with
  | 0 => .error (.jsonDecodeError "input too deep")
  | fuel + 1 =>
    match parseJsonValue fuel cs with
    | .error e => .error e
    | .ok (v, rest) =>
      match jsonWs rest with
      | ',' :: more => parseJsonItems fuel more (v :: acc)
      | ']' :: more => .ok (.arr (v :: acc).reverse, more)
      | _ => .error (.jsonDecodeError "expecting comma or bracket")

end

/- Python `json.loads`: the whole input is one JSON value surrounded only
by whitespace. -/
def json_loads (cs : List Char) : Except PyErr Json :=
  match parseJsonValue (cs.length + 1) cs with
  | .error e => .error e
  | .ok (v, rest) =>
    if jsonWs rest = [] then .ok v else .error (.jsonDecodeError "extra data")

/- `rfplayerlib/protocol.py`: RfplayerProtocol ------------------------- -/

/- `RfPlayerRawEvent = JsonPacketType | SimplePacketType`: the values
passed to `event_callback`. -/
inductive RawEvent where
  | simple (body : List Char)
  | json (packet : Json)
deriving Repr

def RawEvent.beq : RawEvent → RawEvent → Bool
  | .simple a, .simple b => a = b
  | .json a, .json b => a.beq b
  | _, _ => false

instance : BEq RawEvent := ⟨RawEvent.beq⟩

def PACKET_HEADER_LEN : Nat := 5

/- `_valid_packet(line)`: `len(line) > PACKET_HEADER_LEN`. -/
def valid_packet (line : List Char) : Bool := line.length > PACKET_HEADER_LEN

/- `line.strip("\0 \t\r")`. -/
def stripChar (c : Char) : Bool :=
  c = Char.ofNat 0 || c = ' ' || c = '\t' || c = '\r'

def pyStrip (cs : List Char) : List Char :=
  ((cs.dropWhile stripChar).reverse.dropWhile stripChar).reverse

/- `RfplayerProtocol.handle_raw_packet`: dispatch on the 5-character
header tag; the `ZIA33` branch runs `json.loads` on the body, whose
`JSONDecodeError` is not caught and escapes.  The returned list holds the
events passed to `event_callback` (zero or one). -/
def handle_raw_packet (raw_packet : List Char) : Except PyErr (List RawEvent) :=
  let header := raw_packet.take 5
  let body := raw_packet.drop 5
  if header = "ZIA--".toList then .ok [.simple body]
  else if header = "ZIA33".toList then
    match json_loads body with
    | .ok v => .ok [.json v]
    | .error e => .error e
  else if header ∈ ["ZIA00".toList, "ZIA11".toList, "ZIA22".toList,
      "ZIA44".toList, "ZIA66".toList] then
    .ok []  -- unsupported packet format: logged, no event
  else
    .ok []  -- invalid packet: logged, no event

/- `self.buffer.split("\n", 1)`: `none` when the buffer holds no newline,
otherwise the text before the first `'\n'` and the text after it. -/
def splitNl : List Char → Option (List Char × List Char)
  | [] => none
  | c :: rest =>
    if c = '\n' then some ([], rest)
    else (splitNl rest).map (fun p => (c :: p.1, p.2))

theorem splitNl_length {cs line rest : List Char}
    (h : splitNl cs = some (line, rest)) : rest.length < cs.length := by
  induction cs generalizing line rest with
  | nil => cases h
  | cons c cs ih =>
    rw [splitNl] at h
    split at h
    · cases h
      simp
    · match hs : splitNl cs with
      | none => rw [hs] at h; cases h
      | some (l, r) =>
        rw [hs] at h
        cases h
        exact Nat.lt_succ_of_lt (ih hs)

/- Result of a `handle_lines` / `data_received` call: the new buffer, the
events delivered to `event_callback` in order, and the exception (if any)
that escaped the call. -/
structure ProcResult where
  buffer : List Char
  events : List RawEvent
  error : Option PyErr
deriving Repr

/- Worker for `handle_lines`, structurally recursive on a fuel argument;
each iteration of the `while "\n" in self.buffer` loop consumes at least
the newline, so `fuel ≥ length` never hits the fuel-out branch. -/
def handleLinesGo : Nat → List Char → ProcResult
  | 0, buffer => ⟨buffer, [], none⟩
  | fuel + 1, buffer =>
    match splitNl buffer with
    | none => ⟨buffer, [], none⟩
    | some (line, rest) =>
      let line' := pyStrip line
      if valid_packet line' then
        match handle_raw_packet line' with
        | .ok evs =>
          let r := handleLinesGo fuel rest
          ⟨r.buffer, evs ++ r.events, r.error⟩
        | .error e => ⟨rest, [], some e⟩
      else
        handleLinesGo fuel rest

/- `RfplayerProtocol.handle_lines`: repeatedly split the buffer at the
first newline, strip the line, validate its length and dispatch it; an
exception from `handle_raw_packet` escapes after the buffer was already
shortened past the offending line. -/
def handle_lines (buffer : List Char) : ProcResult :=
  handleLinesGo buffer.length buffer

theorem handleLinesGo_eq_of_le :
    ∀ {f1 : Nat} {l : List Char} (f2 : Nat), l.length ≤ f1 → l.length ≤ f2 →
      handleLinesGo f1 l = handleLinesGo f2 l := by
  intro f1
  induction f1 with
  | zero =>
    intro l f2 h1 _
    have : l = [] := List.length_eq_zero.mp (Nat.le_zero.mp h1)
    subst this
    cases f2 <;> rfl
  | succ f1 ih =>
    intro l f2 h1 h2
    cases hs : splitNl l with
    | none =>
      cases f2 with
      | zero =>
        have : l = [] := List.length_eq_zero.mp (Nat.le_zero.mp h2)
        subst this
        rfl
      | succ f2 => simp only [handleLinesGo, hs]
    | some p =>
      obtain ⟨line, rest⟩ := p
      have hlen := splitNl_length hs
      cases f2 with
      | zero => omega
      | succ f2 =>
        simp only [handleLinesGo, hs]
        rw [ih f2 (by omega) (by omega)]

/- Unfolding equations for `handle_lines`, one per branch of the loop
body. -/
theorem handle_lines_of_none {u : List Char} (hs : splitNl u = none) :
    handle_lines u = ⟨u, [], none⟩ := by
  show handleLinesGo u.length u = _
  cases hl : u.length with
  | zero => rfl
  | succ m => simp only [handleLinesGo, hs]

theorem handle_lines_of_ok {u line rest : List Char} {evs : List RawEvent}
    (hs : splitNl u = some (line, rest))
    (hv : valid_packet (pyStrip line) = true)
    (hok : handle_raw_packet (pyStrip line) = .ok evs) :
    handle_lines u =
      ⟨(handle_lines rest).buffer, evs ++ (handle_lines rest).events,
       (handle_lines rest).error⟩ := by
  have hlen := splitNl_length hs
  obtain ⟨m, hm⟩ : ∃ m, u.length = m + 1 := ⟨u.length - 1, by omega⟩
  show handleLinesGo u.length u = _
  rw [hm]
  simp only [handleLinesGo, hs, if_pos hv, hok]
  rw [handleLinesGo_eq_of_le rest.length (by omega) le_rfl]
  rfl

theorem handle_lines_of_error {u line rest : List Char} {e : PyErr}
    (hs : splitNl u = some (line, rest))
    (hv : valid_packet (pyStrip line) = true)
    (herr : handle_raw_packet (pyStrip line) = .error e) :
    handle_lines u = ⟨rest, [], some e⟩ := by
  have hlen := splitNl_length hs
  obtain ⟨m, hm⟩ : ∃ m, u.length = m + 1 := ⟨u.length - 1, by omega⟩
  show handleLinesGo u.length u = _
  rw [hm]
  simp only [handleLinesGo, hs, if_pos hv, herr]

theorem handle_lines_of_invalid {u line rest : List Char}
    (hs : splitNl u = some (line, rest))
    (hv : ¬ valid_packet (pyStrip line) = true) :
    handle_lines u = handle_lines rest := by
  have hlen := splitNl_length hs
  obtain ⟨m, hm⟩ : ∃ m, u.length = m + 1 := ⟨u.length - 1, by omega⟩
  show handleLinesGo u.length u = _
  rw [hm]
  simp only [handleLinesGo, hs, if_neg hv]
  rw [handleLinesGo_eq_of_le rest.length (by omega) le_rfl]
  rfl

/- `RfplayerProtocol.data_received`: strict-decode the chunk; on
`UnicodeDecodeError` the chunk is only logged (with replacement
characters) and dropped — the buffer is left untouched; otherwise the
decoded text is appended to the buffer and `handle_lines` runs. -/
def data_received (buffer : List Char) (data : List Nat) : ProcResult :=
  match utf8Decode data with
  | none => ⟨buffer, [], none⟩
  | some decoded_data => handle_lines (buffer ++ decoded_data)

/- Feed a sequence of chunks through `data_received`, starting from
`buffer`, concatenating the delivered events and collecting the
exceptions that escaped the individual calls. -/
def feed_chunks (buffer : List Char) : List (List Nat) → List Char × List RawEvent × List PyErr
  | [] => (buffer, [], [])
  | d :: ds =>
    let r := data_received buffer d
    let (b2, evs, errs) := feed_chunks r.buffer ds
    (b2, r.events ++ evs, r.error.toList ++ errs)

/- Lemmas for chunk-boundary reasoning ------------------------------- -/

theorem splitNl_append_some {u l r : List Char} (t : List Char)
    (h : splitNl u = some (l, r)) :
    splitNl (u ++ t) = some (l, r ++ t) := by
  induction u generalizing l r with
  | nil => cases h
  | cons c cs ih =>
    rw [splitNl] at h
    rw [List.cons_append, splitNl]
    split at h
    · cases h
      rename_i hc
      rw [if_pos hc]
    · rename_i hc
      rw [if_neg hc]
      cases hcs : splitNl cs with
      | none => rw [hcs] at h; cases h
      | some p =>
        rw [hcs] at h
        cases h
        rw [ih hcs]
        rfl

theorem handle_lines_no_nl_aux :
    ∀ (n : Nat) (u : List Char), u.length ≤ n → (handle_lines u).error = none →
      splitNl (handle_lines u).buffer = none := by
  intro n
  induction n with
  | zero =>
    intro u hu _
    have : u = [] := List.length_eq_zero.mp (Nat.le_zero.mp hu)
    subst this
    rfl
  | succ n ih =>
    intro u hu he
    cases hs : splitNl u with
    | none =>
      rw [handle_lines_of_none hs]
      exact hs
    | some p =>
      obtain ⟨line, rest⟩ := p
      have hlen := splitNl_length hs
      by_cases hv : valid_packet (pyStrip line) = true
      · cases hrp : handle_raw_packet (pyStrip line) with
        | ok evs =>
          rw [handle_lines_of_ok hs hv hrp] at he ⊢
          exact ih rest (by omega) he
        | error e =>
          rw [handle_lines_of_error hs hv hrp] at he
          cases he
      · rw [handle_lines_of_invalid hs hv] at he ⊢
        exact ih rest (by omega) he

/- When a `handle_lines` pass ends without an exception, the residual
buffer holds no newline. -/
theorem handle_lines_no_nl {u : List Char} (he : (handle_lines u).error = none) :
    splitNl (handle_lines u).buffer = none :=
  handle_lines_no_nl_aux u.length u le_rfl he

theorem handle_lines_append_ok_aux :
    ∀ (n : Nat) (u t : List Char), u.length ≤ n →
    (handle_lines u).error = none →
    handle_lines (u ++ t) =
      ⟨(handle_lines ((handle_lines u).buffer ++ t)).buffer,
       (handle_lines u).events ++ (handle_lines ((handle_lines u).buffer ++ t)).events,
       (handle_lines ((handle_lines u).buffer ++ t)).error⟩ := by
  intro n
  induction n with
  | zero =>
    intro u t hu _
    have : u = [] := List.length_eq_zero.mp (Nat.le_zero.mp hu)
    subst this
    have h0 : handle_lines [] = ⟨[], [], none⟩ := rfl
    rw [h0]
    simp
  | succ n ih =>
    intro u t hu he
    cases hs : splitNl u with
    | none =>
      rw [handle_lines_of_none hs] at he ⊢
      simp
    | some p =>
      obtain ⟨line, rest⟩ := p
      have hlen := splitNl_length hs
      by_cases hv : valid_packet (pyStrip line) = true
      · cases hrp : handle_raw_packet (pyStrip line) with
        | ok evs =>
          rw [handle_lines_of_ok hs hv hrp] at he ⊢
          simp only at he ⊢
          rw [handle_lines_of_ok (splitNl_append_some t hs) hv hrp]
          rw [ih rest t (by omega) he]
          simp
        | error e =>
          rw [handle_lines_of_error hs hv hrp] at he
          cases he
      · rw [handle_lines_of_invalid hs hv] at he ⊢
        rw [handle_lines_of_invalid (splitNl_append_some t hs) hv]
        exact ih rest t (by omega) he

/- Feeding `u ++ t` runs the error-free pass over `u` and continues with
the residual buffer prepended to `t`. -/
theorem handle_lines_append_ok {u : List Char} (t : List Char)
    (he : (handle_lines u).error = none) :
    handle_lines (u ++ t) =
      ⟨(handle_lines ((handle_lines u).buffer ++ t)).buffer,
       (handle_lines u).events ++ (handle_lines ((handle_lines u).buffer ++ t)).events,
       (handle_lines ((handle_lines u).buffer ++ t)).error⟩ :=
  handle_lines_append_ok_aux u.length u t le_rfl he

theorem handle_lines_append_error_aux :
    ∀ (n : Nat) (u t : List Char) (e : PyErr), u.length ≤ n →
    (handle_lines u).error = some e →
    handle_lines (u ++ t) =
      ⟨(handle_lines u).buffer ++ t, (handle_lines u).events, some e⟩ := by
  intro n
  induction n with
  | zero =>
    intro u t e hu he
    have : u = [] := List.length_eq_zero.mp (Nat.le_zero.mp hu)
    subst this
    cases he
  | succ n ih =>
    intro u t e hu he
    cases hs : splitNl u with
    | none =>
      rw [handle_lines_of_none hs] at he
      cases he
    | some p =>
      obtain ⟨line, rest⟩ := p
      have hlen := splitNl_length hs
      by_cases hv : valid_packet (pyStrip line) = true
      · cases hrp : handle_raw_packet (pyStrip line) with
        | ok evs =>
          rw [handle_lines_of_ok hs hv hrp] at he ⊢
          simp only at he ⊢
          rw [handle_lines_of_ok (splitNl_append_some t hs) hv hrp]
          rw [ih rest t e (by omega) he]
        | error e' =>
          rw [handle_lines_of_error hs hv hrp] at he ⊢
          have h3 : e' = e := by simpa using he
          subst h3
          rw [handle_lines_of_error (splitNl_append_some t hs) hv hrp]
      · rw [handle_lines_of_invalid hs hv] at he ⊢
        rw [handle_lines_of_invalid (splitNl_append_some t hs) hv]
        exact ih rest t e (by omega) he

/- A pass that raised stops at the offending line: the text appended
after it lands in the residual buffer unprocessed. -/
theorem handle_lines_append_error {u : List Char} (t : List Char) {e : PyErr}
    (he : (handle_lines u).error = some e) :
    handle_lines (u ++ t) =
      ⟨(handle_lines u).buffer ++ t, (handle_lines u).events, some e⟩ :=
  handle_lines_append_error_aux u.length u t e le_rfl he

theorem utf8Decode_flatten : ∀ {chunks : List (List Nat)},
    (∀ c ∈ chunks, (utf8Decode c).isSome) → (utf8Decode chunks.flatten).isSome := by
  intro chunks
  induction chunks with
  | nil => intro _; rfl
  | cons c cs ih =>
    intro h
    obtain ⟨s, hs⟩ := Option.isSome_iff_exists.mp (h c (by simp))
    obtain ⟨S, hS⟩ := Option.isSome_iff_exists.mp (ih (fun d hd => h d (by simp [hd])))
    rw [List.flatten_cons, utf8Decode_append c hs hS]
    rfl

theorem feed_chunks_ok : ∀ (chunks : List (List Nat)) (b : List Char),
    splitNl b = none →
    (∀ c ∈ chunks, (utf8Decode c).isSome) →
    ∀ {S : List Char}, utf8Decode chunks.flatten = some S →
    (handle_lines (b ++ S)).error = none →
    feed_chunks b chunks =
      ((handle_lines (b ++ S)).buffer, (handle_lines (b ++ S)).events, []) := by
  intro chunks
  induction chunks with
  | nil =>
    intro b hb _ S hS _
    simp only [List.flatten_nil, utf8Decode] at hS
    cases hS
    rw [feed_chunks, List.append_nil, handle_lines_of_none hb]
  | cons c cs ih =>
    intro b hb hv S hS herr
    obtain ⟨s, hs⟩ := Option.isSome_iff_exists.mp (hv c (by simp))
    obtain ⟨S', hS'⟩ := Option.isSome_iff_exists.mp
      (utf8Decode_flatten (fun d hd => hv d (List.mem_cons_of_mem c hd)))
    have hcat : utf8Decode (List.flatten (c :: cs)) = some (s ++ S') := by
      rw [List.flatten_cons]
      exact utf8Decode_append c hs hS'
    rw [hS] at hcat
    have hSeq : S = s ++ S' := Option.some.inj hcat
    subst hSeq
    have hassoc : b ++ (s ++ S') = (b ++ s) ++ S' := by simp
    cases herr1 : (handle_lines (b ++ s)).error with
    | some e =>
      exfalso
      have := handle_lines_append_error S' herr1
      rw [hassoc, this] at herr
      simp at herr
    | none =>
      have hsplit := handle_lines_append_ok S' herr1
      rw [hassoc, hsplit] at herr ⊢
      simp only at herr ⊢
      have hb1 : splitNl (handle_lines (b ++ s)).buffer = none :=
        handle_lines_no_nl herr1
      have hrec := ih (handle_lines (b ++ s)).buffer hb1
        (fun d hd => hv d (List.mem_cons_of_mem c hd)) hS' herr
      rw [feed_chunks]
      simp only [data_received, hs, hrec, herr1]
      simp

/-- C1: chunk-boundary invariance as claimed — over all splits, including
ones that cut a multi-byte UTF-8 character — fails on the code: the byte
stream `b"ZIA--h\xc3\xa9llo\n"` (the line `ZIA--héllo`) fed whole
delivers `Simple("héllo")`, but split between the two bytes of `é` both
chunks fail strict UTF-8 decoding, are dropped whole, and nothing is
delivered. -/
theorem C1_counterexample :
    (feed_chunks [] [[90, 73, 65, 45, 45, 104, 195, 169, 108, 108, 111, 10]]).2.1 =
      [RawEvent.simple ['h', 'é', 'l', 'l', 'o']] ∧
    [[90, 73, 65, 45, 45, 104, 195], [169, 108, 108, 111, 10]].flatten =
      [90, 73, 65, 45, 45, 104, 195, 169, 108, 108, 111, 10] ∧
    (feed_chunks [] [[90, 73, 65, 45, 45, 104, 195], [169, 108, 108, 111, 10]]).2.1 = [] ∧
    (feed_chunks [] [[90, 73, 65, 45, 45, 104, 195], [169, 108, 108, 111, 10]]).2.1 ≠
      (feed_chunks [] [[90, 73, 65, 45, 45, 104, 195, 169, 108, 108, 111, 10]]).2.1 := by
  refine ⟨rfl, rfl, rfl, ?_⟩
  intro h
  exact List.noConfusion h

/-- C1 (amended): chunk-boundary invariance holds for every split whose
chunks each independently decode as valid UTF-8, provided the whole-stream
feed raises no packet exception: feeding the chunks sequentially to
`data_received` delivers the same event sequence as feeding the
concatenated stream in one call. -/
theorem C1_chunk_boundary_invariance (chunks : List (List Nat))
    (h1 : ∀ c ∈ chunks, (utf8Decode c).isSome)
    (h2 : (feed_chunks [] [chunks.flatten]).2.2 = []) :
    (feed_chunks [] chunks).2.1 = (feed_chunks [] [chunks.flatten]).2.1 := by
  obtain ⟨S, hS⟩ := Option.isSome_iff_exists.mp (utf8Decode_flatten h1)
  have hwhole : feed_chunks [] [chunks.flatten] =
      ((handle_lines S).buffer, (handle_lines S).events,
       (handle_lines S).error.toList) := by
    rw [feed_chunks, feed_chunks]
    simp [data_received, hS]
  rw [hwhole] at h2 ⊢
  simp only at h2 ⊢
  have herr : (handle_lines S).error = none := by
    cases h : (handle_lines S).error with
    | none => rfl
    | some e => rw [h] at h2; cases h2
  have := feed_chunks_ok chunks [] rfl h1 (S := S) hS (by simpa using herr)
  rw [this]
  simp

/-- Witness for C1: the stream `b"ZIA--Hello\n"` split as
`b"ZIA--He" / b"llo\n"` (both chunks valid UTF-8, no packet error)
delivers the same events chunked as whole. -/
theorem C1_witness :
    (feed_chunks [] [[90, 73, 65, 45, 45, 72, 101], [108, 108, 111, 10]]).2.1 =
      (feed_chunks []
        [[[90, 73, 65, 45, 45, 72, 101], [108, 108, 111, 10]].flatten]).2.1 :=
  C1_chunk_boundary_invariance
    [[90, 73, 65, 45, 45, 72, 101], [108, 108, 111, 10]] (by decide) (by rfl)

/-- C2: the claim that a chunk failing UTF-8 decoding is replacement-decoded
and its decodable lines still processed fails on the code: the chunk
`b"ZIA--Hello world\n\xff"` fails strict decoding, `data_received` drops
it whole (buffer untouched, no event, no exception), although the same
bytes without the trailing `0xff` deliver `Simple("Hello world")`. -/
theorem C2_counterexample :
    utf8Decode [90, 73, 65, 45, 45, 72, 101, 108, 108, 111, 32, 119, 111, 114,
      108, 100, 10, 255] = none ∧
    data_received [] [90, 73, 65, 45, 45, 72, 101, 108, 108, 111, 32, 119, 111,
      114, 108, 100, 10, 255] = ⟨[], [], none⟩ ∧
    (data_received [] [90, 73, 65, 45, 45, 72, 101, 108, 108, 111, 32, 119, 111,
      114, 108, 100, 10]).events =
      [RawEvent.simple ['H', 'e', 'l', 'l', 'o', ' ', 'w', 'o', 'r', 'l', 'd']] :=
  ⟨rfl, rfl, rfl⟩

/-- C2 (amended): a chunk whose bytes fail strict UTF-8 decoding is dropped
in its entirety — `data_received` only logs the replacement-decoded text:
the buffer is unchanged, no event is delivered (decodable lines inside the
chunk are lost), and no exception escapes, so the stream continues. -/
theorem C2_bad_chunk_dropped_whole (buffer : List Char) (data : List Nat)
    (h : utf8Decode data = none) :
    data_received buffer data = ⟨buffer, [], none⟩ := by
  rw [data_received, h]

/-- Witness for C2 (amended): the single byte `0xff` is invalid UTF-8 and
leaves a non-empty buffer untouched. -/
theorem C2_witness :
    data_received ['Z'] [255] = ⟨['Z'], [], none⟩ :=
  C2_bad_chunk_dropped_whole ['Z'] [255] rfl

/-- C5: the claim that a `ZIA33` line with an unparseable body is dropped
and logged without an escaping exception fails on the code: `json.loads`
is not guarded, so the line `ZIA33notjson` makes `handle_raw_packet`
raise, and the exception escapes the `data_received` call (no event). -/
theorem C5_counterexample :
    handle_raw_packet "ZIA33notjson".toList =
      .error (.jsonDecodeError "expecting value") ∧
    (data_received [] [90, 73, 65, 51, 51, 110, 111, 116, 106, 115, 111, 110, 10]).events
      = [] ∧
    (data_received [] [90, 73, 65, 51, 51, 110, 111, 116, 106, 115, 111, 110, 10]).error
      = some (.jsonDecodeError "expecting value") :=
  ⟨rfl, rfl, rfl⟩

/-- C5 (amended): a `ZIA33` line whose body fails JSON parsing raises the
parse error out of `handle_raw_packet` — no event is emitted for it and
the error escapes the `data_received` call; the offending line has
already been consumed from the buffer, so the stream as such continues: a
later `data_received` call still classifies and delivers subsequent valid
lines (shown on the stream `ZIA33notjson\n ZIA--hello\n` fed before an
empty follow-up chunk). -/
theorem C5_bad_json_escapes (body : List Char) (e : PyErr)
    (h : json_loads body = .error e) :
    handle_raw_packet ('Z' :: 'I' :: 'A' :: '3' :: '3' :: body) = .error e ∧
    feed_chunks [] [[90, 73, 65, 51, 51, 110, 111, 116, 106, 115, 111, 110, 10,
        90, 73, 65, 45, 45, 104, 101, 108, 108, 111, 10], []] =
      ([], [RawEvent.simple ['h', 'e', 'l', 'l', 'o']],
       [.jsonDecodeError "expecting value"]) := by
  refine ⟨?_, rfl⟩
  simp only [handle_raw_packet, List.take, List.drop, h]
  rw [if_neg (by decide), if_pos (by decide)]

/-- Witness for C5: instantiated at the body `notjson`. -/
theorem C5_witness :
    handle_raw_packet ('Z' :: 'I' :: 'A' :: '3' :: '3' :: "notjson".toList) =
      .error (.jsonDecodeError "expecting value") :=
  (C5_bad_json_escapes "notjson".toList (.jsonDecodeError "expecting value") rfl).1

/- `rfprofiles/registry.py`: value extraction --------------------------- -/

/- Python truthiness of the optional config fields (`if self.bit_mask:`
etc.): `None`, `0`, `0.0` and the empty dict are falsy. -/
def truthyInt : Option Int → Bool
  | some n => n != 0
  | none => false

def truthyFloat : Option PyFloat → Bool
  | some x => x.m != 0
  | none => false

def truthyMap : Option (List (String × String)) → Bool
  | some m => !m.isEmpty
  | none => false

def truthyStr : Option String → Bool
  | some s => !s.isEmpty
  | none => false

/- Python `a >> b` on ints (arithmetic shift; negative shift counts raise
`ValueError`). -/
def pyShiftRight (a b : Int) : Except PyErr Int :=
  if b < 0 then .error (.valueError "negative shift count")
  else .ok (Int.shiftRight a b.toNat)

/- `self.map.get(result, "undefined")`: dict-get with default on a
`dict[str, str]`; non-string (hashable) keys simply miss; unhashable key
types raise `TypeError`. -/
def dictGetDefault (m : List (String × String)) (key : Json) : Except PyErr Json :=
  match key with
  | .str s =>
    match m.lookup s with
    | some v => .ok (.str v)
    | none => .ok (.str "undefined")
  | .arr _ => .error (.typeError "unhashable type")
  | .obj _ => .error (.typeError "unhashable type")
  | _ => .ok (.str "undefined")

/- `BaseValueConfig` (pydantic model): the four optional transform
parameters. -/
structure BaseValueConfig where
  bit_mask : Option Int
  bit_offset : Option Int
  map : Option (List (String × String))
  factor : Option PyFloat

/- `BaseValueConfig._convert`: the four sequential `if` blocks of the
source, in source order (mask, shift, map, scale); the value starts as
the extracted raw value and is re-stringified by each numeric step. -/
def BaseValueConfig.convert (cfg : BaseValueConfig) (value : Json) :
    Except PyErr Json := do
  let result := value
  let result ←
    match cfg.bit_mask with
    | some mask =>
      if mask != 0 then do
        let n ← pyToInt result
        pure (Json.str (String.mk (pyStrOfInt (Int.land n mask))))
      else pure result
    | none => pure result
  let result ←
    match cfg.bit_offset with
    | some off =>
      if off != 0 then do
        let n ← pyToInt result
        let s ← pyShiftRight n off
        pure (Json.str (String.mk (pyStrOfInt s)))
      else pure result
    | none => pure result
  let result ←
    match cfg.map with
    | some m =>
      if !m.isEmpty then dictGetDefault m result
      else pure result
    | none => pure result
  match cfg.factor with
  | some f =>
    if f.m != 0 then do
      let q ← pyToFloat result
      pure (Json.str (String.mk (pyStrOfFloat (q.mul f))))
    else pure result
  | none => pure result

/- The four pipeline stages of the specification, as standalone
functions, to compare with the sequential source translation above. -/
def maskStage (bit_mask : Option Int) (v : Json) : Except PyErr Json :=
  if truthyInt bit_mask then do
    let n ← pyToInt v
    pure (Json.str (String.mk (pyStrOfInt (Int.land n (bit_mask.getD 0)))))
  else pure v

def shiftStage (bit_offset : Option Int) (v : Json) : Except PyErr Json :=
  if truthyInt bit_offset then do
    let n ← pyToInt v
    let s ← pyShiftRight n (bit_offset.getD 0)
    pure (Json.str (String.mk (pyStrOfInt s)))
  else pure v

def mapStage (map : Option (List (String × String))) (v : Json) : Except PyErr Json :=
  if truthyMap map then dictGetDefault (map.getD []) v
  else pure v

def scaleStage (factor : Option PyFloat) (v : Json) : Except PyErr Json :=
  if truthyFloat factor then do
    let q ← pyToFloat v
    pure (Json.str (String.mk (pyStrOfFloat (q.mul (factor.getD ⟨0, 0⟩)))))
  else pure v

/- jsonpath value extraction (`jsonpath_ng` is an external library; the
profile files use plain key chains such as `$.frame.infos.lowBatt`, with
occasional index and filter steps, so paths are modelled as segment
lists and `find` returns matches in document order). -/
inductive PathSeg where
  | key (k : String)
  | index (i : Nat)
  | filterEq (field : String) (val : Json)

def findSeg : PathSeg → Json → List Json
  | .key k, .obj fields => (fields.lookup k).toList
  | .key _, _ => []
  | .index i, .arr xs => (xs.get? i).toList
  | .index _, _ => []
  | .filterEq f v, .arr xs =>
    xs.filter (fun x =>
      match x with
      | .obj fs => (fs.lookup f).any (fun w => w.beq v)
      | _ => false)
  | .filterEq _ _, _ => []

def findPath (segs : List PathSeg) (j : Json) : List Json :=
  segs.foldl (fun acc seg => (acc.map (findSeg seg)).flatten) [j]

/- `JsonValueConfig` (pydantic model): value/unit paths on top of the
transform parameters. -/
structure JsonValueConfig extends BaseValueConfig where
  value_path : List PathSeg
  unit_path : Option (List PathSeg)

/- `JsonValueConfig._find_value`: run the path query; convert the first
match; `None` when nothing matches. -/
def JsonValueConfig.find_value (cfg : JsonValueConfig) (raw_packet : Json)
    (json_path : List PathSeg) : Except PyErr (Option Json) :=
  match findPath json_path raw_packet with
  | [] => .ok none
  | v :: _ => (cfg.toBaseValueConfig.convert v).map some

/- `JsonValueConfig.get_value`. -/
def JsonValueConfig.get_value (cfg : JsonValueConfig) (raw_packet : Json) :
    Except PyErr (Option Json) :=
  cfg.find_value raw_packet cfg.value_path

/- `_convert` is the Kleisli composition of the four stages in the fixed
specification order mask → shift → map → scale. -/
theorem convert_eq_stages : ∀ (cfg : BaseValueConfig) (v : Json),
    cfg.convert v =
      maskStage cfg.bit_mask v >>= (fun v1 => shiftStage cfg.bit_offset v1) >>=
        (fun v2 => mapStage cfg.map v2) >>= (fun v3 => scaleStage cfg.factor v3) := by
  intro cfg v
  obtain ⟨m, o, mp, f⟩ := cfg
  cases m <;> cases o <;> cases mp <;> cases f <;>
    simp only [BaseValueConfig.convert, maskStage, shiftStage, mapStage, scaleStage,
      truthyInt, truthyFloat, truthyMap, Option.getD, bind_assoc, pure_bind] <;>
    (repeat' split) <;>
    first
      | exact absurd (by assumption : false = true) (by decide)
      | (simp_all only [map_eq_pure_bind, bind_assoc, pure_bind, bind_pure]; rfl)
      | simp_all only [map_eq_pure_bind, bind_assoc, pure_bind, bind_pure]

/-- C6: `_convert` applies the transform pipeline in the fixed order
bit_mask (integer AND) → bit_offset (right shift) → value map (string
lookup) → scale factor (float multiply, re-stringified); it is a pure
function of (config, value) — in this embedding it is a function by
construction.  With `bit_mask=1`, `scale_factor=100.0` and extracted raw
value `"1"`, `get_value` returns `"100.0"` (shown through the full
jsonpath extraction on `frame.infos.lowBatt`). -/
theorem C6_pipeline_order :
    (∀ (cfg : BaseValueConfig) (v : Json),
      cfg.convert v =
        maskStage cfg.bit_mask v >>= (fun v1 => shiftStage cfg.bit_offset v1) >>=
          (fun v2 => mapStage cfg.map v2) >>= (fun v3 => scaleStage cfg.factor v3)) ∧
    JsonValueConfig.get_value
      ⟨⟨some 1, none, none, some ⟨100, 0⟩⟩,
       [.key "frame", .key "infos", .key "lowBatt"], none⟩
      (.obj [("frame", .obj [("infos", .obj [("lowBatt", .str "1")])])]) =
      .ok (some (.str "100.0")) ∧
    BaseValueConfig.convert ⟨some 1, none, none, some ⟨100, 0⟩⟩ (.str "1") =
      .ok (.str "100.0") :=
  ⟨convert_eq_stages, rfl, rfl⟩

/-- C9: the claim that an unmapped raw value always yields the literal
`"undefined"` (never an error) fails when a scale factor is also
configured: with `value_map={"0":"closed","1":"open"}` and `factor=2.0`,
raw value `"2"` maps to `"undefined"`, whose subsequent `float()`
coercion raises `ValueError` instead of producing a string. -/
theorem C9_counterexample :
    BaseValueConfig.convert
      ⟨none, none, some [("0", "closed"), ("1", "open")], some ⟨2, 0⟩⟩ (.str "2") =
      .error (.valueError "could not convert string to float") ∧
    BaseValueConfig.convert
      ⟨none, none, some [("0", "closed"), ("1", "open")], some ⟨2, 0⟩⟩ (.str "2") ≠
      .ok (.str "undefined") :=
  ⟨rfl, fun h => Except.noConfusion h⟩

/-- C9 (amended): with a non-empty value map configured and no truthy
mask, offset or factor, an extracted raw value missing from the map
produces the literal string `"undefined"` — not none and not an error;
with a truthy factor the pipeline instead fails on `float("undefined")`. -/
theorem C9_unmapped_value_undefined (cfg : BaseValueConfig) (s : String)
    (h1 : truthyInt cfg.bit_mask = false)
    (h2 : truthyInt cfg.bit_offset = false)
    (hmap : truthyMap cfg.map = true)
    (hmiss : (cfg.map.getD []).lookup s = none)
    (hfac : truthyFloat cfg.factor = false) :
    cfg.convert (.str s) = .ok (.str "undefined") := by
  rw [convert_eq_stages]
  simp [maskStage, shiftStage, mapStage, scaleStage, h1, h2, hmap, hfac,
    dictGetDefault, hmiss]

/-- Witness for C9 (amended): `value_map={"0":"closed","1":"open"}`, raw
value `"2"`, no other transform configured. -/
theorem C9_witness :
    BaseValueConfig.convert
      ⟨none, none, some [("0", "closed"), ("1", "open")], none⟩ (.str "2") =
      .ok (.str "undefined") :=
  C9_unmapped_value_undefined
    ⟨none, none, some [("0", "closed"), ("1", "open")], none⟩ "2"
    rfl rfl rfl rfl rfl

/-- C10: a transform parameter configured as zero (`bit_mask=0`,
`bit_offset=0`, `factor=0.0`) is falsy in the `if self.bit_mask:` style
guards and is skipped exactly like an absent parameter: `_convert`
behaves identically with the zero-valued and the absent configuration. -/
theorem C10_zero_params_skipped :
    (∀ (cfg : BaseValueConfig) (v : Json),
      BaseValueConfig.convert { cfg with bit_mask := some 0 } v =
        BaseValueConfig.convert { cfg with bit_mask := none } v) ∧
    (∀ (cfg : BaseValueConfig) (v : Json),
      BaseValueConfig.convert { cfg with bit_offset := some 0 } v =
        BaseValueConfig.convert { cfg with bit_offset := none } v) ∧
    (∀ (cfg : BaseValueConfig) (v : Json) (e : Int),
      BaseValueConfig.convert { cfg with factor := some ⟨0, e⟩ } v =
        BaseValueConfig.convert { cfg with factor := none } v) :=
  ⟨fun _ _ => rfl, fun _ _ => rfl, fun _ _ _ => rfl⟩

/- `rfprofiles/registry.py`: profile matching --------------------------- -/

/- `re.match(pattern, s)` (external `re` library): anchored-at-start
match, modelled for the regex fragment the profiles use — literal
characters, `.` and postfix `*`; trailing input beyond the matched prefix
is ignored, as `re.match` does. -/
def reMatchGo (fuel : Nat) (p s : List Char) : Bool :=
  match fuel with
  | 0 => false
  | fuel + 1 =>
    match p, s with
    | [], _ => true
    | c :: '*' :: ps, s =>
      reMatchGo fuel ps s ||
        (match s with
         | d :: s' => (c = '.' || c = d) && reMatchGo fuel (c :: '*' :: ps) s'
         | [] => false)
    | c :: ps, d :: s' => (c = '.' || c = d) && reMatchGo fuel ps s'
    | _ :: _, [] => false

def reMatch (pattern s : String) : Bool :=
  reMatchGo (pattern.length + s.length + pattern.length * s.length + 1)
    pattern.toList s.toList

/- `value[key]` on a Python object: dict lookup raising `KeyError` for a
missing key, `TypeError` on non-dict values. -/
def getItem (j : Json) (key : String) : Except PyErr Json :=
  match j with
  | .obj fields =>
    match fields.lookup key with
    | some v => .ok v
    | none => .error (.keyError key)
  | _ => .error (.typeError "value is not subscriptable by string")

/- `re.match` applied to a packet field: the field must be a string. -/
def reMatchValue (pattern : String) (v : Json) : Except PyErr Bool :=
  match v with
  | .str s => .ok (reMatch pattern s)
  | _ => .error (.typeError "expected string or bytes-like object")

/- `RfPDeviceMatch` (pydantic model): frame-matching rule. -/
structure RfPDeviceMatch where
  protocol : Option String
  info_type : String
  sub_type : Option String
  id_phy : Option String

/- The four platform configuration models and their union
`AnyRfpPlatformConfig`. -/
structure RfpPlatformConfig where
  name : String
  device_class : Option String
  unit : Option String

structure RfpSensorConfig extends RfpPlatformConfig where
  config : JsonValueConfig

structure RfpClimateConfig extends RfpPlatformConfig where
  config : JsonValueConfig

structure RfpCoverConfig extends RfpPlatformConfig where
  config_position : Option JsonValueConfig
  cmd_open : String
  cmd_close : String

structure RfpLightConfig extends RfpPlatformConfig where
  config_status : JsonValueConfig
  config_level : Option JsonValueConfig
  cmd_turn_on : String
  cmd_turn_off : String
  cmd_set_level : Option String

inductive AnyRfpPlatformConfig where
  | sensor (c : RfpSensorConfig)
  | climate (c : RfpClimateConfig)
  | cover (c : RfpCoverConfig)
  | light (c : RfpLightConfig)

/- `RfpDeviceProfile` (pydantic model): named match rule plus per-platform
capability configs; `Platform` (a host-application enum) is modelled as a
string. -/
structure RfpDeviceProfile where
  name : String
  «match» : RfPDeviceMatch
  platforms : List (String × List AnyRfpPlatformConfig)

/- `ProfileRegistry._is_matching`: non-dict packets never match; rule
fields are checked in source order (protocol regex, exact infoType, exact
subType, id_PHY regex), each guarded by the truthiness of the rule field;
packet field accesses are unguarded dict lookups whose `KeyError`
propagates. -/
def is_matching (raw_packet : RawEvent) (profile : RfpDeviceProfile) :
    Except PyErr Bool := do
  match raw_packet with
  | .simple _ => return false
  | .json j =>
    match j with
    | .obj _ => do
      let m := profile.«match»
      if truthyStr m.protocol then do
        let protocol ← getItem (← getItem (← getItem j "frame") "header") "protocolMeaning"
        if !(← reMatchValue (m.protocol.getD "") protocol) then
          return false
      let info_type ← getItem (← getItem (← getItem j "frame") "header") "infoType"
      if !(info_type == Json.str m.info_type) then
        return false
      if truthyStr m.sub_type then do
        let sub_type ← getItem (← getItem (← getItem j "frame") "infos") "subType"
        if !(sub_type == Json.str (m.sub_type.getD "")) then
          return false
      if truthyStr m.id_phy then do
        let id_phy ← getItem (← getItem (← getItem j "frame") "infos") "id_PHY"
        if !(← reMatchValue (m.id_phy.getD "") id_phy) then
          return false
      return true
    | _ => return false

/- The generator-with-`next` in `get_platform_config`: first profile for
which `_is_matching` holds, in registration order; an exception raised by
`_is_matching` while searching propagates. -/
def findFirstMatching (registry : List RfpDeviceProfile) (raw_packet : RawEvent) :
    Except PyErr (Option RfpDeviceProfile) :=
  match registry with
  | [] => .ok none
  | p :: rest => do
    if ← is_matching raw_packet p then return (some p)
    else findFirstMatching rest raw_packet

/- `ProfileRegistry.get_platform_config`: capability configs of the first
matching profile for the requested platform; `[]` when no profile matches
or the matched profile lacks the platform (`profile.platforms.get(platform,
[])`). -/
def get_platform_config (registry : List RfpDeviceProfile) (raw_packet : RawEvent)
    (platform : String) : Except PyErr (List AnyRfpPlatformConfig) := do
  match ← findFirstMatching registry raw_packet with
  | none => return []
  | some profile => return ((profile.platforms.lookup platform).getD [])

/-- C4: the claim that a missing packet key makes `_is_matching` treat the
rule as a non-match (never raising to the caller) fails on the code: the
empty JSON packet `{}` against a rule with only `info_type` set makes
`_is_matching` raise `KeyError("frame")`, which propagates out of
`get_platform_config`. -/
theorem C4_counterexample :
    is_matching (.json (.obj [])) ⟨"p", ⟨none, "0", none, none⟩, []⟩ =
      .error (.keyError "frame") ∧
    get_platform_config [⟨"p", ⟨none, "0", none, none⟩, []⟩] (.json (.obj []))
      "sensor" = .error (.keyError "frame") ∧
    is_matching (.json (.obj [])) ⟨"p", ⟨none, "0", none, none⟩, []⟩ ≠ .ok false :=
  ⟨rfl, rfl, fun h => Except.noConfusion h⟩

/-- C4 (amended): `_is_matching` guards only the packet's type: a
non-dict packet is a non-match (`False`, no exception), but a field
access on a dict packet is unguarded — a packet without the `frame` key
makes `_is_matching` raise `KeyError("frame")` for every rule, and the
exception propagates to the caller of `get_platform_config` instead of
being treated as a non-match. -/
theorem C4_missing_key_raises (profile : RfpDeviceProfile)
    (fields : List (String × Json)) (rest : List RfpDeviceProfile)
    (platform : String)
    (h : fields.lookup "frame" = none) :
    is_matching (.json (.obj fields)) profile = .error (.keyError "frame") ∧
    get_platform_config (profile :: rest) (.json (.obj fields)) platform =
      .error (.keyError "frame") ∧
    (∀ s, is_matching (.simple s) profile = .ok false) := by
  have h1 : is_matching (.json (.obj fields)) profile = .error (.keyError "frame") := by
    simp only [is_matching, getItem, h]
    by_cases hp : truthyStr profile.«match».protocol = true <;> simp [hp] <;> rfl
  refine ⟨h1, ?_, fun s => rfl⟩
  simp only [get_platform_config, findFirstMatching, h1]
  rfl

/-- Witness for C4 (amended): the empty dict packet, a bare `info_type`
rule and an empty registry tail. -/
theorem C4_witness :
    is_matching (.json (.obj [])) ⟨"q", ⟨none, "1", none, none⟩, []⟩ =
      .error (.keyError "frame") ∧
    get_platform_config [⟨"q", ⟨none, "1", none, none⟩, []⟩] (.json (.obj []))
      "cover" = .error (.keyError "frame") ∧
    (∀ s, is_matching (.simple s) ⟨"q", ⟨none, "1", none, none⟩, []⟩ = .ok false) :=
  C4_missing_key_raises ⟨"q", ⟨none, "1", none, none⟩, []⟩ [] [] "cover" rfl

/-- C8: profile matching iterates the registry in registration order and
returns the capability configuration of the first matching profile,
regardless of what later profiles (however specific) would match; a
matched profile without the requested platform yields the empty list, not
an error. -/
theorem C8_first_match_wins (pre : List RfpDeviceProfile) (p : RfpDeviceProfile)
    (rest : List RfpDeviceProfile) (pkt : RawEvent) (platform : String)
    (hpre : ∀ q ∈ pre, is_matching pkt q = .ok false)
    (hp : is_matching pkt p = .ok true) :
    findFirstMatching (pre ++ p :: rest) pkt = .ok (some p) ∧
    get_platform_config (pre ++ p :: rest) pkt platform =
      .ok ((p.platforms.lookup platform).getD []) ∧
    (p.platforms.lookup platform = none →
      get_platform_config (pre ++ p :: rest) pkt platform = .ok []) := by
  have hfind : findFirstMatching (pre ++ p :: rest) pkt = .ok (some p) := by
    induction pre with
    | nil =>
      simp only [List.nil_append, findFirstMatching, hp]
      rfl
    | cons q qre ih =>
      have hq : is_matching pkt q = .ok false := hpre q (by simp)
      simp only [List.cons_append, findFirstMatching, hq]
      have := ih (fun r hr => hpre r (by simp [hr]))
      rw [← this]
      rfl
  refine ⟨hfind, ?_, ?_⟩
  · simp only [get_platform_config, hfind]
    rfl
  · intro hnone
    simp only [get_platform_config, hfind]
    show Except.ok ((p.platforms.lookup platform).getD []) = Except.ok []
    rw [hnone]
    rfl

/-- Witness for C8: two profiles with the same wildcard rule (`info_type
= "4"` only) both match the packet; the first registered wins, and the
requested platform `light` is absent from its platform map, so the result
is `[]`. -/
theorem C8_witness :
    findFirstMatching
      [⟨"A", ⟨none, "4", none, none⟩, [("sensor", [])]⟩,
       ⟨"B", ⟨none, "4", none, none⟩, [("sensor", []), ("light", [])]⟩]
      (.json (.obj [("frame", .obj [("header", .obj [("infoType", .str "4")])])])) =
      .ok (some ⟨"A", ⟨none, "4", none, none⟩, [("sensor", [])]⟩) ∧
    get_platform_config
      [⟨"A", ⟨none, "4", none, none⟩, [("sensor", [])]⟩,
       ⟨"B", ⟨none, "4", none, none⟩, [("sensor", []), ("light", [])]⟩]
      (.json (.obj [("frame", .obj [("header", .obj [("infoType", .str "4")])])]))
      "light" =
      .ok (((⟨"A", ⟨none, "4", none, none⟩, [("sensor", [])]⟩ :
        RfpDeviceProfile).platforms.lookup "light").getD []) ∧
    ((⟨"A", ⟨none, "4", none, none⟩, [("sensor", [])]⟩ :
        RfpDeviceProfile).platforms.lookup "light" = none →
      get_platform_config
        [⟨"A", ⟨none, "4", none, none⟩, [("sensor", [])]⟩,
         ⟨"B", ⟨none, "4", none, none⟩, [("sensor", []), ("light", [])]⟩]
        (.json (.obj [("frame", .obj [("header", .obj [("infoType", .str "4")])])]))
        "light" = .ok []) :=
  C8_first_match_wins []
    ⟨"A", ⟨none, "4", none, none⟩, [("sensor", [])]⟩
    [⟨"B", ⟨none, "4", none, none⟩, [("sensor", []), ("light", [])]⟩]
    (.json (.obj [("frame", .obj [("header", .obj [("infoType", .str "4")])])]))
    "light"
    (fun q hq => absurd hq (List.not_mem_nil q))
    rfl

/- `rfplayerlib/device.py`: device identity derivation ----------------- -/

def UNKNOWN_INFO : String := "unknown"

/- `RfDeviceId` (dataclass).  The source annotates `protocol`, `address`
and `model` as strings, but assigns raw packet values to them unchecked,
so the fields are modelled as `Json`. -/
structure RfDeviceId where
  protocol : Json
  address : Json
  group_id : Option String
  model : Json
deriving Repr

/- `str.lower()` (ASCII case folding; the probed values are ASCII). -/
def pyCharLower (c : Char) : Char :=
  if 'A' ≤ c ∧ c ≤ 'Z' then Char.ofNat (c.toNat + 32) else c

def pyLower (s : String) : String := String.mk (s.data.map pyCharLower)

/- `RfDeviceEventAdapter._convert_raw_model`:
`raw_model.lower() in ["on", "off"]` normalizes to `"switch"`. -/
def convert_raw_model (raw_model : String) : String :=
  if pyLower raw_model = "on" ∨ pyLower raw_model = "off" then "switch"
  else raw_model

/- The `for key in [...]: if key in infos: ...` probing loop shared by
`_get_address` and `_get_model`: the value of the first present key. -/
def probeKeys (keys : List String) (infos : List (String × Json)) : Option Json :=
  match keys with
  | [] => none
  | k :: ks =>
    match infos.lookup k with
    | some v => some v
    | none => probeKeys ks infos

/- `RfDeviceEventAdapter._get_address`: first present of
`id`, `id_channel`, `adr_channel`, else `"unknown"`; the found value is
returned as-is. -/
def get_address (infos : List (String × Json)) : Json :=
  (probeKeys ["id", "id_channel", "adr_channel"] infos).getD (.str UNKNOWN_INFO)

/- `RfDeviceEventAdapter._get_model`: first present of `id_PHYMeaning`,
`subTypeMeaning`, normalized by `_convert_raw_model`, else `"unknown"`;
a non-string value makes `raw_model.lower()` raise `AttributeError`. -/
def get_model (infos : List (String × Json)) : Except PyErr Json :=
  match probeKeys ["id_PHYMeaning", "subTypeMeaning"] infos with
  | some (.str s) => .ok (.str (convert_raw_model s))
  | some _ => .error (.attributeError "lower")
  | none => .ok (.str UNKNOWN_INFO)

/- `RfDeviceEventAdapter._parse_json_device`: unguarded lookups of
`frame`, `header`, `infos` and `protocolMeaning`, then the probed address
and model; a non-dict `infos` makes the `key in infos` probing raise. -/
def parse_json_device (json_packet : Json) : Except PyErr RfDeviceId := do
  let header ← getItem (← getItem json_packet "frame") "header"
  let infos ← getItem (← getItem json_packet "frame") "infos"
  let protocol ← getItem header "protocolMeaning"
  match infos with
  | .obj ifields => do
    let model ← get_model ifields
    pure ⟨protocol, get_address ifields, none, model⟩
  | _ => .error (.typeError "argument of type is not iterable")

/- The specification's ordered priority-list lookup, formulated
independently of the probing loop: first hit among the key lookups. -/
def firstPresent (keys : List String) (infos : List (String × Json)) : Option Json :=
  (keys.filterMap (fun k => infos.lookup k)).head?

theorem probeKeys_eq_firstPresent (keys : List String)
    (infos : List (String × Json)) :
    probeKeys keys infos = firstPresent keys infos := by
  induction keys with
  | nil => rfl
  | cons k ks ih =>
    simp only [probeKeys, firstPresent, List.filterMap_cons]
    cases infos.lookup k with
    | none => simpa [firstPresent] using ih
    | some v => simp

theorem exceptBind_ok {α β : Type} (a : α) (k : α → Except PyErr β) :
    (Except.ok a >>= k) = k a := rfl

theorem exceptBind_err {α β : Type} (e : PyErr) (k : α → Except PyErr β) :
    ((Except.error e : Except PyErr α) >>= k) = .error e := rfl

/-- C7: the derived device identity of a structured packet probes the
nested `infos` section by ordered priority lists — address is the first
present of `id`, `id_channel`, `adr_channel` (else `"unknown"`), model is
the first present of `id_PHYMeaning`, `subTypeMeaning` (else `"unknown"`)
with raw values `on`/`off` (case-insensitive) normalized to `"switch"` —
and protocol is the header's `protocolMeaning` field.  `firstPresent` is
the specification-side ordered lookup. -/
theorem C7_device_identity (packet frame header : Json)
    (ifields : List (String × Json)) (p : Json)
    (h1 : getItem packet "frame" = .ok frame)
    (h2 : getItem frame "header" = .ok header)
    (h3 : getItem frame "infos" = .ok (.obj ifields))
    (h4 : getItem header "protocolMeaning" = .ok p)
    (h5 : ∀ v, firstPresent ["id_PHYMeaning", "subTypeMeaning"] ifields = some v →
      ∃ s, v = .str s) :
    parse_json_device packet =
      .ok ⟨p,
        (firstPresent ["id", "id_channel", "adr_channel"] ifields).getD (.str "unknown"),
        none,
        (match firstPresent ["id_PHYMeaning", "subTypeMeaning"] ifields with
         | some (.str s) =>
           Json.str (if pyLower s = "on" ∨ pyLower s = "off" then "switch" else s)
         | _ => Json.str "unknown")⟩ := by
  simp only [parse_json_device, h1, h2, h3, h4, exceptBind_ok]
  show (do
      let model ← get_model ifields
      pure (⟨p, get_address ifields, none, model⟩ : RfDeviceId) :
        Except PyErr RfDeviceId) = _
  rw [get_address, probeKeys_eq_firstPresent, get_model, probeKeys_eq_firstPresent]
  cases hm : firstPresent ["id_PHYMeaning", "subTypeMeaning"] ifields with
  | none => rfl
  | some v =>
    obtain ⟨s, rfl⟩ := h5 v hm
    simp only [convert_raw_model]
    rfl

/-- Witness for C7: the spec's example — `infos.id_channel="39168"`,
`infos.id_PHYMeaning="PCR800"`, header `protocolMeaning="OREGON"` yields
identity `{protocol:"OREGON", address:"39168", model:"PCR800"}`. -/
theorem C7_witness :
    parse_json_device
      (.obj [("frame", .obj
        [("header", .obj [("protocolMeaning", .str "OREGON")]),
         ("infos", .obj [("id_channel", .str "39168"),
                         ("id_PHYMeaning", .str "PCR800")])])]) =
      .ok ⟨.str "OREGON", .str "39168", none, .str "PCR800"⟩ :=
  C7_device_identity
    (.obj [("frame", .obj
      [("header", .obj [("protocolMeaning", .str "OREGON")]),
       ("infos", .obj [("id_channel", .str "39168"),
                       ("id_PHYMeaning", .str "PCR800")])])])
    (.obj [("header", .obj [("protocolMeaning", .str "OREGON")]),
           ("infos", .obj [("id_channel", .str "39168"),
                           ("id_PHYMeaning", .str "PCR800")])])
    (.obj [("protocolMeaning", .str "OREGON")])
    [("id_channel", .str "39168"), ("id_PHYMeaning", .str "PCR800")]
    (.str "OREGON")
    rfl rfl rfl rfl
    (fun v hv => ⟨"PCR800", (Option.some.inj hv).symm⟩)

/- `rfplayerlib/__init__.py`: RfPlayerClient disconnect wiring ---------- -/

/- CPython positional-arity check: calling a function whose signature
binds `arity` parameters with a different number of positional arguments
raises `TypeError` before the body runs. -/
def pyCallCheck (arity nargs : Nat) : Option PyErr :=
  if nargs = arity then none
  else some (.typeError "positional argument count mismatch")

/- `RfPlayerClient._disconnect_callback_internal` is declared
`def _disconnect_callback_internal(self):` — it binds no parameters
besides `self`. -/
def internalCallbackArity : Nat := 0

/- The client's `disconnect_callback` field is declared
`Callable[[Exception | None], None]` — one positional parameter. -/
def userCallbackArity : Nat := 1

/- Client state relevant to `close()`: whether `self._protocol` is set
and whether `self._protocol.transport` is set. -/
structure ClientState where
  protocolSome : Bool
  transportSome : Bool

/- Observable actions of the close/disconnect path. -/
inductive ClientAction where
  | transportClose
  | userDisconnectCallback (args : List (Option PyErr))
deriving DecidableEq, Repr

/- `RfPlayerClient.close`: `if self._protocol and
self._protocol.transport: self._protocol.transport.close()`, then
`self._protocol = None`. -/
def client_close (st : ClientState) : ClientState × List ClientAction :=
  let acts := if st.protocolSome && st.transportSome then
      [ClientAction.transportClose]
    else []
  ({ st with protocolSome := false }, acts)

/- Body of `_disconnect_callback_internal` (runs only when the call bound
its arguments): `self.close()`, then `self.disconnect_callback()` — zero
positional arguments against the declared one-parameter callback. -/
def disconnect_callback_internal_body (st : ClientState) :
    ClientState × List ClientAction × Option PyErr :=
  let (st1, acts) := client_close st
  match pyCallCheck userCallbackArity 0 with
  | some e => (st1, acts, some e)
  | none => (st1, acts ++ [.userDisconnectCallback []], none)

/- `RfplayerProtocol.connection_lost` wired to a `RfPlayerClient` (as
`connect()` wires it): after logging, `self.disconnect_callback(exc)`
passes one positional argument to `_disconnect_callback_internal`. -/
def connection_lost_client (st : ClientState) (exc : Option PyErr) :
    ClientState × List ClientAction × Option PyErr :=
  match pyCallCheck internalCallbackArity 1 with
  | some e => (st, [], some e)
  | none => disconnect_callback_internal_body st

/-- C3: the claim that every disconnect invokes the client's
disconnect_callback exactly once, carrying the causing error, is broken
by the code: `connection_lost` calls `disconnect_callback(exc)` with one
positional argument, but the client wires in
`_disconnect_callback_internal`, which accepts none — the call raises
`TypeError` and the user's disconnect_callback is never invoked (zero
invocations, not one, and no error is carried).  Even with matching outer
arity the body would call `self.disconnect_callback()` with zero
arguments against the declared one-parameter signature and fail the same
way.  The close-idempotence half of the claim does hold: `close()` twice
closes the transport exactly once. -/
theorem C3_disconnect_callback_arity_bug :
    (∀ (st : ClientState) (exc : Option PyErr),
      connection_lost_client st exc =
        (st, [], some (.typeError "positional argument count mismatch"))) ∧
    (∀ st : ClientState,
      disconnect_callback_internal_body st =
        ((client_close st).1, (client_close st).2,
         some (.typeError "positional argument count mismatch"))) ∧
    (client_close ⟨true, true⟩).2 = [ClientAction.transportClose] ∧
    (client_close (client_close ⟨true, true⟩).1).2 = [] :=
  ⟨fun _ _ => rfl, fun _ => rfl, rfl, rfl⟩

end RfPlayer
